import Mathlib

/-!
# Formal model of `scripts/create_icon.py`

Shallow embedding of the icon-generation script.  The script renders a square
RGBA canvas (`create_app_icon`): a vertical gradient, a rounded-corner alpha
mask, a white tent triangle, a dark tent-opening triangle and four gold stars,
and then exports fixed iOS / Android asset tables (`contents`,
`android_sizes`).

Pixels are addressed by natural coordinates; a canvas is a total function from
coordinates to colors (pixels outside the `size × size` square are model
artifacts and every theorem restricts to in-range pixels where that matters).
Arithmetic done by Python in floating point (`y / size`, `size * 0.35`,
`math.cos`, ...) is modelled by exact rational / real arithmetic, and the
drawing primitives of the PIL library (which is not part of the repository)
are modelled geometrically: a polygon fill covers exactly the integer points
of the closed polygon, a rounded rectangle covers the integer points of the
closed rounded-rectangle region, an ellipse/disc fill covers the closed disc.
-/

/-- An RGBA color, one natural number per channel (0–255 in range). -/
structure Color where
  r : ℕ
  g : ℕ
  b : ℕ
  a : ℕ
deriving DecidableEq, Repr

/-- Initial color: `Image.new('RGBA', (size, size), (0, 0, 0, 0))` fills with it. -/
def transparentColor : Color := ⟨0, 0, 0, 0⟩

/-- One gradient channel of the loop body:
`int(top + (bottom - top) * ratio)` with `ratio = y / size`.
The value is nonnegative for the channels used, so Python's truncation
toward zero is the floor. -/
def gradChannel (top bottom : ℤ) (y s : ℕ) : ℕ :=
  (Int.floor ((top : ℚ) + ((bottom : ℚ) - (top : ℚ)) * ((y : ℚ) / (s : ℚ)))).toNat

/-- The gradient fill color for row `y`:
`r = int(63 + (48 - 63) * ratio)`, `g = int(81 + (63 - 81) * ratio)`,
`b = int(181 + (159 - 181) * ratio)`, alpha `255`. -/
def gradColor (s y : ℕ) : Color :=
  ⟨gradChannel 63 48 y s, gradChannel 81 63 y s, gradChannel 181 159 y s, 255⟩

/-- A canvas: colors indexed by pixel coordinates. -/
def Canvas := ℕ → ℕ → Color

/-- Model of `draw.rectangle([(0, y), (size, y + 1)], fill=(r, g, b, 255))`:
one iteration of the gradient loop paints rows `y` and `y + 1`
(PIL rectangles include both corner coordinates). -/
def paintRow (s row : ℕ) (c : Canvas) : Canvas := fun x y =>
  if x ≤ s ∧ (y = row ∨ y = row + 1) then gradColor s row else c x y

/-- The gradient loop `for y in range(size)` after `k` iterations,
starting from the fully transparent canvas. -/
def gradLoop (s : ℕ) : ℕ → Canvas
  | 0 => fun _ _ => transparentColor
  | k + 1 => paintRow s k (gradLoop s k)

/-- The background image `img` after the whole gradient loop. -/
def img (s : ℕ) : Canvas := gradLoop s s

/-- Membership in a closed integer disc (model of a PIL corner ellipse). -/
def inDisc (cx cy r x y : ℤ) : Prop := (x - cx) ^ 2 + (y - cy) ^ 2 ≤ r ^ 2

instance (cx cy r x y : ℤ) : Decidable (inDisc cx cy r x y) := by
  unfold inDisc; infer_instance

/-- Geometric model of
`mask_draw.rounded_rectangle([(0, 0), (size, size)], radius=size//5, fill=255)`:
the closed rounded rectangle on the box `[0, size] × [0, size]` with corner
radius `size / 5` — the union of the two central bands and the four closed
corner discs centred at distance `size / 5` from the box corners. -/
def inRoundedRect (s x y : ℕ) : Prop :=
  x ≤ s ∧ y ≤ s ∧
    ((s / 5 ≤ x ∧ x ≤ s - s / 5) ∨ (s / 5 ≤ y ∧ y ≤ s - s / 5) ∨
      inDisc (s / 5) (s / 5) (s / 5) x y ∨
      inDisc ((s - s / 5 : ℕ)) (s / 5) (s / 5) x y ∨
      inDisc (s / 5) ((s - s / 5 : ℕ)) (s / 5) x y ∨
      inDisc ((s - s / 5 : ℕ)) ((s - s / 5 : ℕ)) (s / 5) x y)

instance (s x y : ℕ) : Decidable (inRoundedRect s x y) := by
  unfold inRoundedRect; infer_instance

/-- The `'L'`-mode mask pixel: 255 inside the rounded rectangle, 0 outside. -/
def maskVal (s x y : ℕ) : ℕ := if inRoundedRect s x y then 255 else 0

/-- Model of `output.paste(img, (0, 0)); output.putalpha(mask)`: the canvas after
compositing — the gradient's color channels with the mask as alpha. -/
def masked (s x y : ℕ) : Color :=
  ⟨(img s x y).r, (img s x y).g, (img s x y).b, maskVal s x y⟩

/-- 2D cross product of two integer vectors. -/
def cross2 (u v : ℤ × ℤ) : ℤ := u.1 * v.2 - u.2 * v.1

/-- Point `p` is on the same closed side of the line `a b` as the vertex `c`. -/
def sideOK (a b c p : ℤ × ℤ) : Prop :=
  0 ≤ cross2 (b.1 - a.1, b.2 - a.2) (p.1 - a.1, p.2 - a.2) *
      cross2 (b.1 - a.1, b.2 - a.2) (c.1 - a.1, c.2 - a.2)

instance (a b c p : ℤ × ℤ) : Decidable (sideOK a b c p) := by
  unfold sideOK; infer_instance

/-- Integer point in the closed triangle `a b c` (model of
`draw.polygon([...], fill=...)` for a three-point polygon): inside the
bounding box and on the inner closed side of each edge. -/
def inTriangle (a b c p : ℤ × ℤ) : Prop :=
  min a.1 (min b.1 c.1) ≤ p.1 ∧ p.1 ≤ max a.1 (max b.1 c.1) ∧
  min a.2 (min b.2 c.2) ≤ p.2 ∧ p.2 ≤ max a.2 (max b.2 c.2) ∧
  sideOK a b c p ∧ sideOK b c a p ∧ sideOK c a b p

instance (a b c p : ℤ × ℤ) : Decidable (inTriangle a b c p) := by
  unfold inTriangle; infer_instance

/-- Source: `tent_width = size // 2`. -/
def tent_width (s : ℕ) : ℕ := s / 2

/-- Source: `tent_height = int(size * 0.35)` (exactly `⌊7 * size / 20⌋`). -/
def tent_height (s : ℕ) : ℕ := 7 * s / 20

/-- Source: `tent_x = size // 2`. -/
def tent_x (s : ℕ) : ℕ := s / 2

/-- Source: `tent_y = int(size * 0.6)` (exactly `⌊3 * size / 5⌋`). -/
def tent_y (s : ℕ) : ℕ := 3 * s / 5

/-- Source: `opening_width = tent_width // 2`. -/
def opening_width (s : ℕ) : ℕ := tent_width s / 2

/-- Source: `opening_height = tent_height // 2`. -/
def opening_height (s : ℕ) : ℕ := tent_height s / 2

/-- The main tent triangle
`[(tent_x - tent_width//2, tent_y), (tent_x, tent_y - tent_height),
(tent_x + tent_width//2, tent_y)]`. -/
def inTent (s x y : ℕ) : Prop :=
  inTriangle ((tent_x s : ℤ) - (tent_width s / 2 : ℕ), (tent_y s : ℤ))
    ((tent_x s : ℤ), (tent_y s : ℤ) - (tent_height s : ℕ))
    ((tent_x s : ℤ) + (tent_width s / 2 : ℕ), (tent_y s : ℤ))
    ((x : ℤ), (y : ℤ))

/-- The tent-opening triangle
`[(tent_x - opening_width//2, tent_y), (tent_x, tent_y - opening_height),
(tent_x + opening_width//2, tent_y)]`. -/
def inOpening (s x y : ℕ) : Prop :=
  inTriangle ((tent_x s : ℤ) - (opening_width s / 2 : ℕ), (tent_y s : ℤ))
    ((tent_x s : ℤ), (tent_y s : ℤ) - (opening_height s : ℕ))
    ((tent_x s : ℤ) + (opening_width s / 2 : ℕ), (tent_y s : ℤ))
    ((x : ℤ), (y : ℤ))

instance (s x y : ℕ) : Decidable (inTent s x y) := by
  unfold inTent; infer_instance

instance (s x y : ℕ) : Decidable (inOpening s x y) := by
  unfold inOpening; infer_instance

/-- The angle of star vertex `i`: `math.pi * i / 5 - math.pi / 2`. -/
noncomputable def starAngle (i : ℕ) : ℝ := Real.pi * i / 5 - Real.pi / 2

/-- Star vertex `i` of `draw_star(x, y, radius)`:
`r = radius` if `i` is even else `radius * 0.5`;
`(x + r * cos(angle), y + r * sin(angle))`. -/
noncomputable def starVertex (x y radius : ℝ) (i : ℕ) : ℝ × ℝ :=
  ((x + (if i % 2 = 0 then radius else radius * 0.5) * Real.cos (starAngle i)),
   (y + (if i % 2 = 0 then radius else radius * 0.5) * Real.sin (starAngle i)))

/-- The vertex list built by the loop `for i in range(10)` of `draw_star`. -/
noncomputable def starPoints (x y radius : ℝ) : List (ℝ × ℝ) :=
  (List.range 10).map (starVertex x y radius)

/-- The filled star decagon: geometric model of
`draw.polygon(points, fill=(255, 215, 0, 255))` for the ten alternating
vertices — the inner pentagon spanned by the odd (inner) vertices together
with the five point triangles (an outer vertex with its two neighbouring
inner vertices). -/
noncomputable def starRegion (x y radius : ℝ) : Set (ℝ × ℝ) :=
  convexHull ℝ {p | ∃ k, k < 5 ∧ p = starVertex x y radius (2 * k + 1)} ∪
    ⋃ k ∈ Finset.range 5,
      convexHull ℝ {starVertex x y radius (2 * k),
        starVertex x y radius ((2 * k + 1) % 10),
        starVertex x y radius ((2 * k + 9) % 10)}

/-- Source list `star_positions`: the four `(x, y, radius)` triples of the script,
`(size*0.2, size*0.2, size*0.08), (size*0.8, size*0.15, size*0.06),
(size*0.15, size*0.8, size*0.06), (size*0.85, size*0.85, size*0.08)`. -/
noncomputable def star_positions (s : ℕ) : List (ℝ × ℝ × ℝ) :=
  [((s : ℝ) * 0.2, (s : ℝ) * 0.2, (s : ℝ) * 0.08),
   ((s : ℝ) * 0.8, (s : ℝ) * 0.15, (s : ℝ) * 0.06),
   ((s : ℝ) * 0.15, (s : ℝ) * 0.8, (s : ℝ) * 0.06),
   ((s : ℝ) * 0.85, (s : ℝ) * 0.85, (s : ℝ) * 0.08)]

/-- The pixel `(x, y)` is covered by at least one of the four stars. -/
noncomputable def inStars (s x y : ℕ) : Prop :=
  ∃ t ∈ star_positions s, ((x : ℝ), (y : ℝ)) ∈ starRegion t.1 t.2.1 t.2.2

/-- The canvas after the tent triangle is drawn on the masked image
(`fill=(255, 255, 255, 255)`). -/
noncomputable def afterTent (s x y : ℕ) : Color :=
  if inTent s x y then ⟨255, 255, 255, 255⟩ else masked s x y

/-- The canvas after the tent opening is drawn (`fill=(48, 63, 159, 255)`). -/
noncomputable def afterOpening (s x y : ℕ) : Color :=
  if inOpening s x y then ⟨48, 63, 159, 255⟩ else afterTent s x y

open Classical in
/-- Model of `create_app_icon(size)`: the color of pixel `(x, y)` of the finished
icon.  The four stars are drawn last (`fill=(255, 215, 0, 255)`), over the
opening, which is drawn over the tent, which is drawn over the masked
gradient. -/
noncomputable def create_app_icon (s : ℕ) (x y : ℕ) : Color :=
  if inStars s x y then ⟨255, 215, 0, 255⟩ else afterOpening s x y

/-- One entry of the `images` list of `Contents.json`. -/
structure ImageEntry where
  size : String
  idiom : String
  filename : String
  scale : String
deriving DecidableEq, Repr

/-- The `info` block of `Contents.json`. -/
structure ContentsInfo where
  version : ℕ
  author : String
deriving DecidableEq, Repr

/-- The whole `Contents.json` structure. -/
structure Contents where
  images : List ImageEntry
  info : ContentsInfo
deriving DecidableEq, Repr

/-- The `contents` dictionary written to `Contents.json` by `main`. -/
def contents : Contents :=
  ⟨[⟨"20x20", "iphone", "icon-40.png", "2x"⟩,
    ⟨"20x20", "iphone", "icon-60.png", "3x"⟩,
    ⟨"29x29", "iphone", "icon-58.png", "2x"⟩,
    ⟨"29x29", "iphone", "icon-87.png", "3x"⟩,
    ⟨"40x40", "iphone", "icon-80.png", "2x"⟩,
    ⟨"40x40", "iphone", "icon-120.png", "3x"⟩,
    ⟨"60x60", "iphone", "icon-120.png", "2x"⟩,
    ⟨"60x60", "iphone", "icon-180.png", "3x"⟩,
    ⟨"1024x1024", "ios-marketing", "icon-1024.png", "1x"⟩],
   ⟨1, "xcode"⟩⟩

/-- Source list `android_sizes`: the Android density table of `main`. -/
def android_sizes : List (ℕ × String) :=
  [(48, "mipmap-mdpi"), (72, "mipmap-hdpi"), (96, "mipmap-xhdpi"),
   (144, "mipmap-xxhdpi"), (192, "mipmap-xxxhdpi")]

/-- Abstract filesystem state for the Android export loop: the set of
existing directories and the written files `(directory, name, bitmap)`. -/
structure FS where
  dirs : List String
  files : List (String × String × (ℕ → ℕ → Color))

/-- Model of `os.makedirs(folder_path, exist_ok=True)`. -/
def makedirs (fs : FS) (d : String) : FS :=
  if d ∈ fs.dirs then fs else { fs with dirs := d :: fs.dirs }

/-- Model of `icon.save(os.path.join(folder_path, name), 'PNG')`. -/
def saveFile (fs : FS) (d name : String) (bitmap : ℕ → ℕ → Color) : FS :=
  { fs with files := (d, name, bitmap) :: fs.files }

/-- One iteration of the Android loop: create the density directory and save
the rendered icon under both launcher names. -/
noncomputable def androidStep (fs : FS) (e : ℕ × String) : FS :=
  saveFile (saveFile (makedirs fs e.2) e.2 "ic_launcher.png" (create_app_icon e.1))
    e.2 "ic_launcher_round.png" (create_app_icon e.1)

/-- The whole Android export loop of `main`, from an arbitrary initial
filesystem state. -/
noncomputable def androidGenerate (fs : FS) : FS :=
  android_sizes.foldl androidStep fs

/-! ## Helper lemmas: the star region is contained in its outer disc -/

/-- The closed Euclidean disc around `(cx, cy)`, described by its squared
distance, as a subset of the plane `ℝ × ℝ`. -/
def ballSq (cx cy radius : ℝ) : Set (ℝ × ℝ) :=
  {p | (p.1 - cx) ^ 2 + (p.2 - cy) ^ 2 ≤ radius ^ 2}

lemma convex_ballSq (cx cy radius : ℝ) : Convex ℝ (ballSq cx cy radius) := by
  intro p hp q hq a b ha hb hab
  simp only [ballSq, Set.mem_setOf_eq] at hp hq ⊢
  have h1 : (a • p + b • q).1 = a * p.1 + b * q.1 := rfl
  have h2 : (a • p + b • q).2 = a * p.2 + b * q.2 := rfl
  rw [h1, h2]
  have hb1 : b = 1 - a := by linarith
  subst hb1
  nlinarith [mul_le_mul_of_nonneg_left hp ha, mul_le_mul_of_nonneg_left hq hb,
    mul_nonneg (mul_nonneg ha hb) (sq_nonneg ((p.1 - cx) - (q.1 - cx))),
    mul_nonneg (mul_nonneg ha hb) (sq_nonneg ((p.2 - cy) - (q.2 - cy)))]

lemma starVertex_mem_ballSq (x y radius : ℝ) (h : 0 ≤ radius) (i : ℕ) :
    starVertex x y radius i ∈ ballSq x y radius := by
  have hsc := Real.sin_sq_add_cos_sq (starAngle i)
  simp only [starVertex, ballSq, Set.mem_setOf_eq, add_sub_cancel_left]
  by_cases hi : i % 2 = 0 <;> simp only [hi, if_true, if_false, reduceIte] <;>
    nlinarith [hsc, sq_nonneg radius, h]

lemma starRegion_subset_ballSq (x y radius : ℝ) (h : 0 ≤ radius) :
    starRegion x y radius ⊆ ballSq x y radius := by
  intro p hp
  rcases hp with hp | hp
  · refine convexHull_min ?_ (convex_ballSq x y radius) hp
    rintro q ⟨k, hk, rfl⟩
    exact starVertex_mem_ballSq x y radius h _
  · simp only [Set.mem_iUnion] at hp
    obtain ⟨k, hk, hmem⟩ := hp
    refine convexHull_min ?_ (convex_ballSq x y radius) hmem
    rintro q hq
    rcases hq with rfl | rfl | rfl <;> exact starVertex_mem_ballSq x y radius h _

/-- If the pixel `(x, y)` is strictly outside each star's outer disc
(stated with integer arithmetic, all coordinates scaled by 100), then no star
covers it. -/
lemma not_inStars_of_sq (s x y : ℕ)
    (h1 : ((8 : ℤ) * s) ^ 2 < (100 * x - 20 * s) ^ 2 + (100 * y - 20 * s) ^ 2)
    (h2 : ((6 : ℤ) * s) ^ 2 < (100 * x - 80 * s) ^ 2 + (100 * y - 15 * s) ^ 2)
    (h3 : ((6 : ℤ) * s) ^ 2 < (100 * x - 15 * s) ^ 2 + (100 * y - 80 * s) ^ 2)
    (h4 : ((8 : ℤ) * s) ^ 2 < (100 * x - 85 * s) ^ 2 + (100 * y - 85 * s) ^ 2) :
    ¬ inStars s x y := by
  rintro ⟨t, ht, hmem⟩
  simp only [star_positions, List.mem_cons, List.not_mem_nil, or_false] at ht
  rcases ht with rfl | rfl | rfl | rfl
  · have hb := starRegion_subset_ballSq _ _ _ (by positivity) hmem
    simp only [ballSq, Set.mem_setOf_eq] at hb
    have h1R : (((8 : ℤ) * s : ℤ) : ℝ) ^ 2 <
        (((100 * x - 20 * s : ℤ) : ℝ)) ^ 2 + (((100 * y - 20 * s : ℤ) : ℝ)) ^ 2 := by
      exact_mod_cast h1
    push_cast at h1R
    nlinarith [hb, h1R]
  · have hb := starRegion_subset_ballSq _ _ _ (by positivity) hmem
    simp only [ballSq, Set.mem_setOf_eq] at hb
    have h2R : (((6 : ℤ) * s : ℤ) : ℝ) ^ 2 <
        (((100 * x - 80 * s : ℤ) : ℝ)) ^ 2 + (((100 * y - 15 * s : ℤ) : ℝ)) ^ 2 := by
      exact_mod_cast h2
    push_cast at h2R
    nlinarith [hb, h2R]
  · have hb := starRegion_subset_ballSq _ _ _ (by positivity) hmem
    simp only [ballSq, Set.mem_setOf_eq] at hb
    have h3R : (((6 : ℤ) * s : ℤ) : ℝ) ^ 2 <
        (((100 * x - 15 * s : ℤ) : ℝ)) ^ 2 + (((100 * y - 80 * s : ℤ) : ℝ)) ^ 2 := by
      exact_mod_cast h3
    push_cast at h3R
    nlinarith [hb, h3R]
  · have hb := starRegion_subset_ballSq _ _ _ (by positivity) hmem
    simp only [ballSq, Set.mem_setOf_eq] at hb
    have h4R : (((8 : ℤ) * s : ℤ) : ℝ) ^ 2 <
        (((100 * x - 85 * s : ℤ) : ℝ)) ^ 2 + (((100 * y - 85 * s : ℤ) : ℝ)) ^ 2 := by
      exact_mod_cast h4
    push_cast at h4R
    nlinarith [hb, h4R]

/-! ## Helper lemmas: pixels outside the rounded-rectangle footprint are
far from every star -/

lemma sq_lt_sum_left {u v rho : ℤ} (h0 : 0 ≤ rho) (h : rho < u ∨ u < -rho) :
    rho ^ 2 < u ^ 2 + v ^ 2 := by
  rcases h with h | h
  · nlinarith [sq_nonneg v]
  · nlinarith [sq_nonneg v]

lemma sq_lt_sum_right {u v rho : ℤ} (h0 : 0 ≤ rho) (h : rho < v ∨ v < -rho) :
    rho ^ 2 < u ^ 2 + v ^ 2 := by
  rcases h with h | h
  · nlinarith [sq_nonneg u]
  · nlinarith [sq_nonneg u]

/-- Top-left quadrant of the outside region: all four star discs missed. -/
lemma starFar_TL (S X Y R : ℤ) (hR : 1 ≤ R) (hS1 : 5 * R ≤ S) (hS2 : S ≤ 5 * R + 4)
    (hX : X < R) (hY : Y < R) (h0X : 0 ≤ X) (h0Y : 0 ≤ Y)
    (hd : R ^ 2 < (X - R) ^ 2 + (Y - R) ^ 2) :
    (8 * S) ^ 2 < (100 * X - 20 * S) ^ 2 + (100 * Y - 20 * S) ^ 2 ∧
    (6 * S) ^ 2 < (100 * X - 80 * S) ^ 2 + (100 * Y - 15 * S) ^ 2 ∧
    (6 * S) ^ 2 < (100 * X - 15 * S) ^ 2 + (100 * Y - 80 * S) ^ 2 ∧
    (8 * S) ^ 2 < (100 * X - 85 * S) ^ 2 + (100 * Y - 85 * S) ^ 2 := by
  have hS0 : 0 < S := by linarith
  refine ⟨?_, ?_, ?_, ?_⟩
  · have k1 : 0 ≤ 100 * (R - X) := by linarith
    have k2 : 100 * (R - X) ≤ 20 * S - 100 * X := by linarith
    have k3 : 0 ≤ 100 * (R - Y) := by linarith
    have k4 : 100 * (R - Y) ≤ 20 * S - 100 * Y := by linarith
    have q1 : (100 * (R - X)) ^ 2 ≤ (20 * S - 100 * X) ^ 2 := pow_le_pow_left k1 k2 2
    have q2 : (100 * (R - Y)) ^ 2 ≤ (20 * S - 100 * Y) ^ 2 := pow_le_pow_left k3 k4 2
    have hs : S ^ 2 ≤ (5 * R + 4) ^ 2 := pow_le_pow_left (by linarith) hS2 2
    have hRR : 0 ≤ (R - 1) * R := mul_nonneg (by linarith) (by linarith)
    nlinarith [q1, q2, hs, hd, hRR]
  · exact sq_lt_sum_left (by linarith) (Or.inr (by linarith))
  · exact sq_lt_sum_right (by linarith) (Or.inr (by linarith))
  · exact sq_lt_sum_left (by linarith) (Or.inr (by linarith))

/-- Top-right quadrant of the outside region: all four star discs missed. -/
lemma starFar_TR (S X Y R : ℤ) (hR : 1 ≤ R) (hS1 : 5 * R ≤ S) (hS2 : S ≤ 5 * R + 4)
    (hX : S - R < X) (hXle : X ≤ S - 1) (hY : Y < R) (h0Y : 0 ≤ Y)
    (hd : R ^ 2 < (X - (S - R)) ^ 2 + (Y - R) ^ 2) :
    (8 * S) ^ 2 < (100 * X - 20 * S) ^ 2 + (100 * Y - 20 * S) ^ 2 ∧
    (6 * S) ^ 2 < (100 * X - 80 * S) ^ 2 + (100 * Y - 15 * S) ^ 2 ∧
    (6 * S) ^ 2 < (100 * X - 15 * S) ^ 2 + (100 * Y - 80 * S) ^ 2 ∧
    (8 * S) ^ 2 < (100 * X - 85 * S) ^ 2 + (100 * Y - 85 * S) ^ 2 := by
  have hS0 : 0 < S := by linarith
  refine ⟨?_, ?_, ?_, ?_⟩
  · exact sq_lt_sum_left (by linarith) (Or.inl (by linarith))
  · -- near star 2: A = X - (S - R) ≥ 1, B = R - Y ∈ [1, R], E = 100R - 15S
    have hA1 : 1 ≤ X - (S - R) := by linarith
    have hB1 : 1 ≤ R - Y := by linarith
    have hBR : R - Y ≤ R := by linarith
    have hu0 : 0 ≤ 100 * (X - (S - R)) := by linarith
    have hu1 : 100 * (X - (S - R)) ≤ 100 * X - 80 * S := by linarith
    have qu : (100 * (X - (S - R))) ^ 2 ≤ (100 * X - 80 * S) ^ 2 :=
      pow_le_pow_left hu0 hu1 2
    have hAB : R ^ 2 + 1 ≤ (X - (S - R)) ^ 2 + (Y - R) ^ 2 := by linarith
    rcases le_or_lt 0 (100 * R - 15 * S) with hE | hE
    · have hEB : (100 * R - 15 * S) * (R - Y) ≤ (100 * R - 15 * S) * R :=
        mul_le_mul_of_nonneg_left hBR hE
      nlinarith [qu, hAB, hEB, sq_nonneg S]
    · have hs : S ^ 2 ≤ (5 * R + 4) ^ 2 := pow_le_pow_left (by linarith) hS2 2
      have hRR : 0 ≤ (R - 1) * R := mul_nonneg (by linarith) (by linarith)
      have hEB : 0 ≤ (15 * S - 100 * R) * (R - Y) :=
        mul_nonneg (by linarith) (by linarith)
      nlinarith [qu, hAB, hEB, hs, hRR]
  · exact sq_lt_sum_left (by linarith) (Or.inl (by linarith))
  · exact sq_lt_sum_right (by linarith) (Or.inr (by linarith))

/-- Bottom-left quadrant of the outside region: all four star discs missed. -/
lemma starFar_BL (S X Y R : ℤ) (hR : 1 ≤ R) (hS1 : 5 * R ≤ S) (hS2 : S ≤ 5 * R + 4)
    (hX : X < R) (h0X : 0 ≤ X) (hY : S - R < Y) (hYle : Y ≤ S - 1)
    (hd : R ^ 2 < (X - R) ^ 2 + (Y - (S - R)) ^ 2) :
    (8 * S) ^ 2 < (100 * X - 20 * S) ^ 2 + (100 * Y - 20 * S) ^ 2 ∧
    (6 * S) ^ 2 < (100 * X - 80 * S) ^ 2 + (100 * Y - 15 * S) ^ 2 ∧
    (6 * S) ^ 2 < (100 * X - 15 * S) ^ 2 + (100 * Y - 80 * S) ^ 2 ∧
    (8 * S) ^ 2 < (100 * X - 85 * S) ^ 2 + (100 * Y - 85 * S) ^ 2 := by
  have hS0 : 0 < S := by linarith
  refine ⟨?_, ?_, ?_, ?_⟩
  · exact sq_lt_sum_right (by linarith) (Or.inl (by linarith))
  · exact sq_lt_sum_right (by linarith) (Or.inl (by linarith))
  · -- near star 3: mirror of the star-2 case
    have hA1 : 1 ≤ Y - (S - R) := by linarith
    have hB1 : 1 ≤ R - X := by linarith
    have hBR : R - X ≤ R := by linarith
    have hv0 : 0 ≤ 100 * (Y - (S - R)) := by linarith
    have hv1 : 100 * (Y - (S - R)) ≤ 100 * Y - 80 * S := by linarith
    have qv : (100 * (Y - (S - R))) ^ 2 ≤ (100 * Y - 80 * S) ^ 2 :=
      pow_le_pow_left hv0 hv1 2
    have hAB : R ^ 2 + 1 ≤ (X - R) ^ 2 + (Y - (S - R)) ^ 2 := by linarith
    rcases le_or_lt 0 (100 * R - 15 * S) with hE | hE
    · have hEB : (100 * R - 15 * S) * (R - X) ≤ (100 * R - 15 * S) * R :=
        mul_le_mul_of_nonneg_left hBR hE
      nlinarith [qv, hAB, hEB, sq_nonneg S]
    · have hs : S ^ 2 ≤ (5 * R + 4) ^ 2 := pow_le_pow_left (by linarith) hS2 2
      have hRR : 0 ≤ (R - 1) * R := mul_nonneg (by linarith) (by linarith)
      have hEB : 0 ≤ (15 * S - 100 * R) * (R - X) :=
        mul_nonneg (by linarith) (by linarith)
      nlinarith [qv, hAB, hEB, hs, hRR]
  · exact sq_lt_sum_left (by linarith) (Or.inr (by linarith))

/-- The quadratic certificate for the bottom-right corner against the
nearby star: in fresh variables `A, B` (corner-relative coordinates) and
`E` (the scaled offset between disc centre and star centre). -/
lemma starFar_BR_cert (A B E R S : ℤ) (hAB : R ^ 2 + 1 ≤ A ^ 2 + B ^ 2)
    (hEsq : E ^ 2 ≤ (25 * R) ^ 2) (hs : S ^ 2 ≤ (5 * R + 4) ^ 2)
    (hRR : 0 ≤ (R - 5) * R) :
    (8 * S) ^ 2 < (100 * A - E) ^ 2 + (100 * B - E) ^ 2 := by
  nlinarith [sq_nonneg (50 * (A + B) - 2 * E), sq_nonneg (A - B), hAB, hEsq, hs, hRR]

/-- Bottom-right quadrant of the outside region: all four star discs missed. -/
lemma starFar_BR (S X Y R : ℤ) (hR : 1 ≤ R) (hS1 : 5 * R ≤ S) (hS2 : S ≤ 5 * R + 4)
    (hX : S - R < X) (hXle : X ≤ S - 1) (hY : S - R < Y) (hYle : Y ≤ S - 1)
    (hd : R ^ 2 < (X - (S - R)) ^ 2 + (Y - (S - R)) ^ 2) :
    (8 * S) ^ 2 < (100 * X - 20 * S) ^ 2 + (100 * Y - 20 * S) ^ 2 ∧
    (6 * S) ^ 2 < (100 * X - 80 * S) ^ 2 + (100 * Y - 15 * S) ^ 2 ∧
    (6 * S) ^ 2 < (100 * X - 15 * S) ^ 2 + (100 * Y - 80 * S) ^ 2 ∧
    (8 * S) ^ 2 < (100 * X - 85 * S) ^ 2 + (100 * Y - 85 * S) ^ 2 := by
  have hS0 : 0 < S := by linarith
  refine ⟨?_, ?_, ?_, ?_⟩
  · exact sq_lt_sum_left (by linarith) (Or.inl (by linarith))
  · exact sq_lt_sum_right (by linarith) (Or.inl (by linarith))
  · exact sq_lt_sum_left (by linarith) (Or.inl (by linarith))
  · -- near star 4
    have hA1 : 1 ≤ X - (S - R) := by linarith
    have hB1 : 1 ≤ Y - (S - R) := by linarith
    have hAle : X - (S - R) ≤ R - 1 := by linarith
    have hBle : Y - (S - R) ≤ R - 1 := by linarith
    have hAB : R ^ 2 + 1 ≤ (X - (S - R)) ^ 2 + (Y - (S - R)) ^ 2 := by linarith
    rcases lt_or_ge R 4 with hR4 | hR4
    · -- R ≤ 3: the outside corner region is empty, contradiction
      exfalso
      have qA : (X - (S - R)) ^ 2 ≤ (R - 1) ^ 2 :=
        pow_le_pow_left (by linarith) hAle 2
      have qB : (Y - (S - R)) ^ 2 ≤ (R - 1) ^ 2 :=
        pow_le_pow_left (by linarith) hBle 2
      have hRR : 0 ≤ (R - 1) * (3 - R) := mul_nonneg (by linarith) (by linarith)
      nlinarith [qA, qB, hAB, hRR]
    rcases lt_or_ge R 5 with hR5 | hR5
    · -- R = 4, so 20 ≤ S ≤ 24 and the only outside pixel has A = B = 3
      have hReq : R = 4 := by omega
      subst hReq
      have hA3 : X - (S - 4) ≤ 3 := by linarith
      have hB3 : Y - (S - 4) ≤ 3 := by linarith
      have hAeq : X - (S - 4) = 3 := by nlinarith [hAB, hA3, hB3, hA1, hB1]
      have hBeq : Y - (S - 4) = 3 := by nlinarith [hAB, hA3, hB3, hA1, hB1]
      have hXv : 100 * X - 85 * S = 15 * S - 100 := by linarith
      have hYv : 100 * Y - 85 * S = 15 * S - 100 := by linarith
      rw [hXv, hYv]
      nlinarith [hS1, hS2]
    · -- R ≥ 5: quadratic certificate, via `starFar_BR_cert`
      have hE1 : 100 * R - 15 * S ≤ 25 * R := by linarith
      have hE0 : 0 ≤ 100 * R - 15 * S := by linarith
      have hEsq : (100 * R - 15 * S) ^ 2 ≤ (25 * R) ^ 2 :=
        pow_le_pow_left hE0 hE1 2
      have hs : S ^ 2 ≤ (5 * R + 4) ^ 2 := pow_le_pow_left (by linarith) hS2 2
      have hRR : 0 ≤ (R - 5) * R := mul_nonneg (by linarith) (by linarith)
      have hgx : 100 * X - 85 * S = 100 * (X - (S - R)) - (100 * R - 15 * S) := by ring
      have hgy : 100 * Y - 85 * S = 100 * (Y - (S - R)) - (100 * R - 15 * S) := by ring
      rw [hgx, hgy]
      exact starFar_BR_cert _ _ _ _ _ hAB hEsq hs hRR

/-- A pixel of the canvas lying outside the rounded-rectangle footprint is
covered by none of the four stars. -/
lemma outside_not_inStars (s x y : ℕ) (hx : x < s) (hy : y < s)
    (h : ¬ inRoundedRect s x y) : ¬ inStars s x y := by
  have hxs : x ≤ s := Nat.le_of_lt hx
  have hys : y ≤ s := Nat.le_of_lt hy
  have hs5 : 5 ≤ s := by
    by_contra hlt
    exact h ⟨hxs, hys, Or.inl ⟨by omega, by omega⟩⟩
  unfold inRoundedRect at h
  push_neg at h
  obtain ⟨hbx, hby, hd1, hd2, hd3, hd4⟩ := h hxs hys
  have hsub : ((s - s / 5 : ℕ) : ℤ) = (s : ℤ) - ((s / 5 : ℕ) : ℤ) :=
    Nat.cast_sub (Nat.div_le_self s 5)
  unfold inDisc at hd1 hd2 hd3 hd4
  push_neg at hd1 hd2 hd3 hd4
  rw [hsub] at hd2 hd3 hd4
  have hqx : x < s / 5 ∨ s - s / 5 < x := by omega
  have hqy : y < s / 5 ∨ s - s / 5 < y := by omega
  have hR1 : (1 : ℤ) ≤ ((s / 5 : ℕ) : ℤ) := by omega
  have hS1 : 5 * ((s / 5 : ℕ) : ℤ) ≤ (s : ℤ) := by omega
  have hS2 : (s : ℤ) ≤ 5 * ((s / 5 : ℕ) : ℤ) + 4 := by omega
  have hall :
      (8 * (s : ℤ)) ^ 2 < (100 * x - 20 * s) ^ 2 + (100 * y - 20 * s) ^ 2 ∧
      (6 * (s : ℤ)) ^ 2 < (100 * x - 80 * s) ^ 2 + (100 * y - 15 * s) ^ 2 ∧
      (6 * (s : ℤ)) ^ 2 < (100 * x - 15 * s) ^ 2 + (100 * y - 80 * s) ^ 2 ∧
      (8 * (s : ℤ)) ^ 2 < (100 * x - 85 * s) ^ 2 + (100 * y - 85 * s) ^ 2 := by
    rcases hqx with hqx | hqx <;> rcases hqy with hqy | hqy
    · exact starFar_TL (s : ℤ) (x : ℤ) (y : ℤ) ((s / 5 : ℕ) : ℤ) hR1 hS1 hS2
        (by omega) (by omega) (by omega) (by omega) hd1
    · exact starFar_BL (s : ℤ) (x : ℤ) (y : ℤ) ((s / 5 : ℕ) : ℤ) hR1 hS1 hS2
        (by omega) (by omega) (by omega) (by omega) hd3
    · exact starFar_TR (s : ℤ) (x : ℤ) (y : ℤ) ((s / 5 : ℕ) : ℤ) hR1 hS1 hS2
        (by omega) (by omega) (by omega) (by omega) hd2
    · exact starFar_BR (s : ℤ) (x : ℤ) (y : ℤ) ((s / 5 : ℕ) : ℤ) hR1 hS1 hS2
        (by omega) (by omega) (by omega) (by omega) hd4
  exact not_inStars_of_sq s x y hall.1 hall.2.1 hall.2.2.1 hall.2.2.2

/-! ## Helper lemmas: the gradient loop, and containment of the tent in the
rounded-rectangle footprint -/

/-- After at least `y + 1` iterations of the gradient loop, row `y` holds the
gradient color of row `y` (iteration `y` painted it last). -/
lemma gradLoop_eq (s : ℕ) : ∀ k x y, y < k → x ≤ s → gradLoop s k x y = gradColor s y := by
  intro k
  induction k with
  | zero => intro x y hy hx; omega
  | succ n ih =>
    intro x y hy hx
    show paintRow s n (gradLoop s n) x y = gradColor s y
    unfold paintRow
    by_cases hcase : y = n
    · subst hcase
      rw [if_pos ⟨hx, Or.inl rfl⟩]
    · have hlt : y < n := by omega
      rw [if_neg (by omega : ¬ (x ≤ s ∧ (y = n ∨ y = n + 1)))]
      exact ih x y hlt hx

/-- Every in-range pixel of the background image holds its row's gradient
color. -/
lemma img_eq (s x y : ℕ) (hy : y < s) (hx : x ≤ s) : img s x y = gradColor s y :=
  gradLoop_eq s s x y hy hx

/-- The tent triangle lies inside the rounded-rectangle footprint. -/
lemma inTent_inRoundedRect (s x y : ℕ) (h : inTent s x y) : inRoundedRect s x y := by
  unfold inTent inTriangle at h
  obtain ⟨h1, h2, h3, h4, -, -, -⟩ := h
  simp only [tent_x, tent_width, tent_y, tent_height] at h1 h2 h3 h4
  exact ⟨by omega, by omega, Or.inr (Or.inl ⟨by omega, by omega⟩)⟩

/-- The tent-opening triangle lies inside the rounded-rectangle footprint. -/
lemma inOpening_inRoundedRect (s x y : ℕ) (h : inOpening s x y) : inRoundedRect s x y := by
  unfold inOpening inTriangle at h
  obtain ⟨h1, h2, h3, h4, -, -, -⟩ := h
  simp only [tent_x, opening_width, tent_width, tent_y, opening_height,
    tent_height] at h1 h2 h3 h4
  exact ⟨by omega, by omega, Or.inr (Or.inl ⟨by omega, by omega⟩)⟩

/-- Master lemma: an in-range pixel outside the rounded-rectangle footprint
keeps its row's gradient color channels and gets alpha 0. -/
lemma create_app_icon_outside (s x y : ℕ) (hx : x < s) (hy : y < s)
    (h : ¬ inRoundedRect s x y) :
    create_app_icon s x y = ⟨(gradColor s y).r, (gradColor s y).g, (gradColor s y).b, 0⟩ := by
  have hstar := outside_not_inStars s x y hx hy h
  have htent : ¬ inTent s x y := fun ht => h (inTent_inRoundedRect s x y ht)
  have hop : ¬ inOpening s x y := fun ht => h (inOpening_inRoundedRect s x y ht)
  unfold create_app_icon afterOpening afterTent
  rw [if_neg hstar, if_neg hop, if_neg htent]
  unfold masked maskVal
  rw [if_neg h, img_eq s x y hy (le_of_lt hx)]

/-- Side conditions for a point on the vertical centre line of an isosceles
triangle with horizontal base: it is on the inner side of all three edges as
soon as its height is between apex and base. -/
lemma tent_sides (T D H Ty M : ℤ) (hD : 0 ≤ D) (hH : 0 ≤ H)
    (h1 : Ty - H ≤ M) (h2 : M ≤ Ty) :
    sideOK (T - D, Ty) (T, Ty - H) (T + D, Ty) (T, M) ∧
    sideOK (T, Ty - H) (T + D, Ty) (T - D, Ty) (T, M) ∧
    sideOK (T + D, Ty) (T - D, Ty) (T, Ty - H) (T, M) := by
  have k1 : 0 ≤ D * D * H * (M - (Ty - H)) :=
    mul_nonneg (mul_nonneg (mul_nonneg hD hD) hH) (by linarith)
  have k2 : 0 ≤ D * D * H * (Ty - M) :=
    mul_nonneg (mul_nonneg (mul_nonneg hD hD) hH) (by linarith)
  unfold sideOK cross2
  refine ⟨?_, ?_, ?_⟩ <;> simp only <;> nlinarith [k1, k2]

/-- Two squared coordinates each at least `(R - 1)^2` cannot both fit in a
disc of radius `R ≥ 4`. -/
lemma disc_excl {u v R : ℤ} (h4 : 4 ≤ R) (hu : (R - 1) ^ 2 ≤ u ^ 2)
    (hv : (R - 1) ^ 2 ≤ v ^ 2) : ¬ (u ^ 2 + v ^ 2 ≤ R ^ 2) := by
  intro hcon
  have hA : 0 ≤ (R - 4) * R := mul_nonneg (by linarith) (by linarith)
  nlinarith [hu, hv, hcon, hA]

/-- None of the four corner discs of the rounded-rectangle mask reaches a
corner pixel of the canvas once the corner radius is at least 4. -/
lemma corner_disc_exclusions (S R X Y : ℤ) (h4 : 4 ≤ R) (h1 : 5 * R ≤ S)
    (h2 : S ≤ 5 * R + 4) (hx : X = 0 ∨ X = S - 1) (hy : Y = 0 ∨ Y = S - 1) :
    ¬ ((X - R) ^ 2 + (Y - R) ^ 2 ≤ R ^ 2) ∧
    ¬ ((X - (S - R)) ^ 2 + (Y - R) ^ 2 ≤ R ^ 2) ∧
    ¬ ((X - R) ^ 2 + (Y - (S - R)) ^ 2 ≤ R ^ 2) ∧
    ¬ ((X - (S - R)) ^ 2 + (Y - (S - R)) ^ 2 ≤ R ^ 2) := by
  have p1 : (R - 1) ^ 2 ≤ ((0 : ℤ) - R) ^ 2 := by nlinarith [h4]
  have p2 : (R - 1) ^ 2 ≤ ((S - 1) - R) ^ 2 := by
    nlinarith [mul_nonneg (by linarith : (0 : ℤ) ≤ S - 2 * R) (by linarith : (0 : ℤ) ≤ S - 2)]
  have p3 : (R - 1) ^ 2 ≤ ((0 : ℤ) - (S - R)) ^ 2 := by
    nlinarith [mul_nonneg (by linarith : (0 : ℤ) ≤ S - 2 * R + 1) (by linarith : (0 : ℤ) ≤ S - 1)]
  have p4 : (R - 1) ^ 2 ≤ ((S - 1) - (S - R)) ^ 2 := by nlinarith []
  rcases hx with rfl | rfl <;> rcases hy with rfl | rfl
  · exact ⟨disc_excl h4 p1 p1, disc_excl h4 p3 p1, disc_excl h4 p1 p3, disc_excl h4 p3 p3⟩
  · exact ⟨disc_excl h4 p1 p2, disc_excl h4 p3 p2, disc_excl h4 p1 p4, disc_excl h4 p3 p4⟩
  · exact ⟨disc_excl h4 p2 p1, disc_excl h4 p4 p1, disc_excl h4 p2 p3, disc_excl h4 p4 p3⟩
  · exact ⟨disc_excl h4 p2 p2, disc_excl h4 p4 p2, disc_excl h4 p2 p4, disc_excl h4 p4 p4⟩

/-- Corner pixels of the canvas are outside the rounded-rectangle footprint
whenever the corner radius `size / 5` is at least 4. -/
lemma corner_not_inRoundedRect (s x y : ℕ) (hs : 4 ≤ s / 5)
    (hx : x = 0 ∨ x = s - 1) (hy : y = 0 ∨ y = s - 1) : ¬ inRoundedRect s x y := by
  intro hin
  obtain ⟨-, -, hband⟩ := hin
  have hs20 : 20 ≤ s := by omega
  have hsub : ((s - s / 5 : ℕ) : ℤ) = (s : ℤ) - ((s / 5 : ℕ) : ℤ) :=
    Nat.cast_sub (Nat.div_le_self s 5)
  have hx' : (x : ℤ) = 0 ∨ (x : ℤ) = (s : ℤ) - 1 := by omega
  have hy' : (y : ℤ) = 0 ∨ (y : ℤ) = (s : ℤ) - 1 := by omega
  have hexcl := corner_disc_exclusions (s : ℤ) ((s / 5 : ℕ) : ℤ) (x : ℤ) (y : ℤ)
    (by omega) (by omega) (by omega) hx' hy'
  unfold inDisc at hband
  rcases hband with hb | hb | hb | hb | hb | hb
  · omega
  · omega
  · exact hexcl.1 hb
  · exact hexcl.2.1 (by rw [hsub] at hb; exact hb)
  · exact hexcl.2.2.1 (by rw [hsub] at hb; exact hb)
  · exact hexcl.2.2.2 (by rw [hsub] at hb; exact hb)

/-- Antitonicity of a gradient channel with decreasing target color. -/
lemma gradChannel_anti (top bottom : ℤ) (hbt : bottom ≤ top) (s y1 y2 : ℕ)
    (h12 : y1 ≤ y2) (hs : 0 < s) :
    gradChannel top bottom y2 s ≤ gradChannel top bottom y1 s := by
  unfold gradChannel
  apply Int.toNat_le_toNat
  apply Int.floor_le_floor
  have hsq : (0 : ℚ) < (s : ℚ) := by exact_mod_cast hs
  have h1 : (y1 : ℚ) / (s : ℚ) ≤ (y2 : ℚ) / (s : ℚ) := by
    have hy12 : (y1 : ℚ) ≤ (y2 : ℚ) := by exact_mod_cast h12
    gcongr
  have h2 : ((bottom : ℚ) - (top : ℚ)) ≤ 0 := by
    have : (bottom : ℚ) ≤ (top : ℚ) := by exact_mod_cast hbt
    linarith
  nlinarith [mul_le_mul_of_nonpos_left h1 h2]

/-! ## Claim theorems -/

/-- C1: `create_app_icon` is deterministic — two renders with the same size
agree on every pixel (the embedding is a pure function of `size`). -/
theorem C1_render_deterministic (s1 s2 x y : ℕ) (h : s1 = s2) :
    create_app_icon s1 x y = create_app_icon s2 x y := by rw [h]

theorem C1_render_deterministic_witness :
    (7 : ℕ) = 7 ∧ create_app_icon 7 3 3 = create_app_icon 7 3 3 :=
  ⟨rfl, C1_render_deterministic 7 7 3 3 rfl⟩

/-- C2: for `y < size` every pixel of row `y` of the pre-mask background
holds the truncated linear blend of the top color (63, 81, 181) and the
bottom color (48, 63, 159) at ratio `y / size`, with alpha 255; in
particular the color is constant across the row. -/
theorem C2_gradient_row_formula (s x y : ℕ) (hs : 0 < s) (hy : y < s) (hx : x < s) :
    img s x y =
      ⟨(Int.floor ((63 : ℚ) + (48 - 63) * ((y : ℚ) / (s : ℚ)))).toNat,
       (Int.floor ((81 : ℚ) + (63 - 81) * ((y : ℚ) / (s : ℚ)))).toNat,
       (Int.floor ((181 : ℚ) + (159 - 181) * ((y : ℚ) / (s : ℚ)))).toNat, 255⟩ := by
  rw [img_eq s x y hy (le_of_lt hx)]
  simp only [gradColor, gradChannel]
  norm_num

theorem C2_gradient_row_formula_witness :
    (0 : ℕ) < 5 ∧ (2 : ℕ) < 5 ∧ (0 : ℕ) < 5 ∧ img 5 0 2 = ⟨57, 73, 172, 255⟩ := by
  refine ⟨by decide, by decide, by decide, ?_⟩
  rw [C2_gradient_row_formula 5 0 2 (by decide) (by decide) (by decide)]
  norm_num
  decide

/-- C5: the pre-mask gradient is monotone: for rows `y1 < y2` every color
channel at row `y2` is at most the same channel at row `y1`. -/
theorem C5_gradient_monotone (s x y1 y2 : ℕ) (hs : 0 < s) (hx : x < s)
    (h12 : y1 < y2) (h2 : y2 < s) :
    (img s x y2).r ≤ (img s x y1).r ∧ (img s x y2).g ≤ (img s x y1).g ∧
    (img s x y2).b ≤ (img s x y1).b := by
  rw [img_eq s x y1 (by omega) (le_of_lt hx), img_eq s x y2 h2 (le_of_lt hx)]
  refine ⟨?_, ?_, ?_⟩
  · exact gradChannel_anti 63 48 (by norm_num) s y1 y2 (le_of_lt h12) hs
  · exact gradChannel_anti 81 63 (by norm_num) s y1 y2 (le_of_lt h12) hs
  · exact gradChannel_anti 181 159 (by norm_num) s y1 y2 (le_of_lt h12) hs

theorem C5_gradient_monotone_witness :
    (0 : ℕ) < 10 ∧ (0 : ℕ) < 10 ∧ (0 : ℕ) < 5 ∧ (5 : ℕ) < 10 ∧
    ((img 10 0 5).r ≤ (img 10 0 0).r ∧ (img 10 0 5).g ≤ (img 10 0 0).g ∧
      (img 10 0 5).b ≤ (img 10 0 0).b) :=
  ⟨by decide, by decide, by decide, by decide,
    C5_gradient_monotone 10 0 0 5 (by decide) (by decide) (by decide) (by decide)⟩

/-- C9: every pixel of the finished icon has alpha 0 or alpha 255 — the
mask is binary and every drawing fill uses alpha 255. -/
theorem C9_alpha_binary (s x y : ℕ) :
    (create_app_icon s x y).a = 0 ∨ (create_app_icon s x y).a = 255 := by
  unfold create_app_icon afterOpening afterTent masked maskVal
  split_ifs <;> simp

/-- C10: applying the rounded-corner mask changes only alpha: a pixel
outside the rounded-rectangle footprint keeps the gradient color of its row
in the red, green and blue channels of the finished icon, and its alpha
is 0. -/
theorem C10_mask_only_alpha (s x y : ℕ) (hx : x < s) (hy : y < s)
    (h : ¬ inRoundedRect s x y) :
    (create_app_icon s x y).r = (gradColor s y).r ∧
    (create_app_icon s x y).g = (gradColor s y).g ∧
    (create_app_icon s x y).b = (gradColor s y).b ∧
    (create_app_icon s x y).a = 0 := by
  rw [create_app_icon_outside s x y hx hy h]
  exact ⟨rfl, rfl, rfl, rfl⟩

theorem C10_mask_only_alpha_witness :
    (0 : ℕ) < 5 ∧ ¬ inRoundedRect 5 0 0 ∧
    ((create_app_icon 5 0 0).r = (gradColor 5 0).r ∧
     (create_app_icon 5 0 0).g = (gradColor 5 0).g ∧
     (create_app_icon 5 0 0).b = (gradColor 5 0).b ∧
     (create_app_icon 5 0 0).a = 0) :=
  ⟨by decide, by decide,
    C10_mask_only_alpha 5 0 0 (by decide) (by decide) (by decide)⟩

/-- C3 counterexample: at size 19 the corner radius is `19 / 5 = 3 ≥ 1`,
yet the bottom-right corner pixel `(18, 18)` of the icon is fully opaque:
it lies inside the bottom-right corner disc of the mask (the mask box
`[(0,0),(size,size)]` overhangs the canvas by one pixel), so the claimed
transparency fails. -/
theorem C3_corner_counterexample :
    1 ≤ 19 / 5 ∧ (create_app_icon 19 18 18).a = 255 := by
  refine ⟨by decide, ?_⟩
  have hstar : ¬ inStars 19 18 18 :=
    not_inStars_of_sq 19 18 18 (by norm_num) (by norm_num) (by norm_num) (by norm_num)
  unfold create_app_icon afterOpening afterTent
  rw [if_neg hstar, if_neg (by decide : ¬ inOpening 19 18 18),
    if_neg (by decide : ¬ inTent 19 18 18)]
  unfold masked maskVal
  rw [if_pos (by decide : inRoundedRect 19 18 18)]

/-- C3 (amended): the four corner pixels of the icon are fully transparent
(alpha 0) for every size whose corner radius `size / 5` is at least 4 —
in particular for every size the script actually generates.  (For radii
1–3 the bottom corners stay inside the mask, see the counterexample.) -/
theorem C3_corners_transparent (s : ℕ) (h : 4 ≤ s / 5) :
    (create_app_icon s 0 0).a = 0 ∧ (create_app_icon s (s - 1) 0).a = 0 ∧
    (create_app_icon s 0 (s - 1)).a = 0 ∧ (create_app_icon s (s - 1) (s - 1)).a = 0 := by
  have hs : 20 ≤ s := by omega
  refine ⟨?_, ?_, ?_, ?_⟩
  · rw [create_app_icon_outside s 0 0 (by omega) (by omega)
      (corner_not_inRoundedRect s 0 0 h (Or.inl rfl) (Or.inl rfl))]
  · rw [create_app_icon_outside s (s - 1) 0 (by omega) (by omega)
      (corner_not_inRoundedRect s (s - 1) 0 h (Or.inr rfl) (Or.inl rfl))]
  · rw [create_app_icon_outside s 0 (s - 1) (by omega) (by omega)
      (corner_not_inRoundedRect s 0 (s - 1) h (Or.inl rfl) (Or.inr rfl))]
  · rw [create_app_icon_outside s (s - 1) (s - 1) (by omega) (by omega)
      (corner_not_inRoundedRect s (s - 1) (s - 1) h (Or.inr rfl) (Or.inr rfl))]

theorem C3_corners_transparent_witness :
    4 ≤ 20 / 5 ∧
    ((create_app_icon 20 0 0).a = 0 ∧ (create_app_icon 20 19 0).a = 0 ∧
     (create_app_icon 20 0 19).a = 0 ∧ (create_app_icon 20 19 19).a = 0) :=
  ⟨by decide, C3_corners_transparent 20 (by decide)⟩

/-- C4 counterexample: at the generated size 40 the claimed tent mid-height
pixel on the centre line is `(40 / 2, ⌊0.425 * 40⌋) = (20, 17)`, which is
exactly the apex of the tent-opening triangle, so it is painted the opening
color (48, 63, 159, 255) and not white. -/
theorem C4_tent_pixel_counterexample :
    40 / 2 = 20 ∧ 17 * 40 / 40 = 17 ∧
    create_app_icon 40 20 17 = ⟨48, 63, 159, 255⟩ ∧
    create_app_icon 40 20 17 ≠ ⟨255, 255, 255, 255⟩ := by
  have hstar : ¬ inStars 40 20 17 :=
    not_inStars_of_sq 40 20 17 (by norm_num) (by norm_num) (by norm_num) (by norm_num)
  have heq : create_app_icon 40 20 17 = ⟨48, 63, 159, 255⟩ := by
    unfold create_app_icon afterOpening
    rw [if_neg hstar, if_pos (by decide : inOpening 40 20 17)]
  exact ⟨by decide, by decide, heq, by rw [heq]; decide⟩

/-- C4 (amended): for `size ≥ 5`, the pixel at the horizontal centre
`size / 2` and at vertical position `⌊0.425 * size⌋ = 17 * size / 40`
(the tent's mid-height formula of the claim) is opaque white provided it
lies strictly above the apex of the tent opening,
`17 * size / 40 < tent_y - opening_height`.  When that strict inequality
fails the pixel coincides with the opening apex and is painted the opening
color instead (see the counterexample at size 40). -/
theorem C4_tent_pixel_white (s : ℕ) (hs : 5 ≤ s)
    (hstrict : 17 * s / 40 < tent_y s - opening_height s) :
    create_app_icon s (s / 2) (17 * s / 40) = ⟨255, 255, 255, 255⟩ := by
  have hstar : ¬ inStars s (s / 2) (17 * s / 40) := by
    apply not_inStars_of_sq
    · exact sq_lt_sum_left (by positivity) (Or.inl (by omega))
    · exact sq_lt_sum_left (by positivity) (Or.inr (by omega))
    · exact sq_lt_sum_left (by positivity) (Or.inl (by omega))
    · exact sq_lt_sum_left (by positivity) (Or.inr (by omega))
  have hlow : 3 * s / 5 - 7 * s / 20 ≤ 17 * s / 40 := by
    obtain ⟨q, r, hr, rfl⟩ : ∃ q r, r < 40 ∧ s = 40 * q + r :=
      ⟨s / 40, s % 40, Nat.mod_lt _ (by norm_num), by omega⟩
    interval_cases r <;> omega
  simp only [tent_y, opening_height, tent_height] at hstrict
  have hop : ¬ inOpening s (s / 2) (17 * s / 40) := by
    intro hmem
    unfold inOpening inTriangle at hmem
    obtain ⟨-, -, h3, -, -, -, -⟩ := hmem
    simp only [tent_x, tent_y, opening_height, tent_height, tent_width] at h3
    omega
  have htent : inTent s (s / 2) (17 * s / 40) := by
    unfold inTent inTriangle
    simp only [tent_x, tent_y, tent_height, tent_width]
    have hsides := tent_sides ((s / 2 : ℕ) : ℤ) ((s / 2 / 2 : ℕ) : ℤ)
      ((7 * s / 20 : ℕ) : ℤ) ((3 * s / 5 : ℕ) : ℤ) ((17 * s / 40 : ℕ) : ℤ)
      (by positivity) (by positivity) (by omega) (by omega)
    exact ⟨by omega, by omega, by omega, by omega, hsides.1, hsides.2.1, hsides.2.2⟩
  unfold create_app_icon afterOpening afterTent
  rw [if_neg hstar, if_neg hop, if_pos htent]

theorem C4_tent_pixel_white_witness :
    5 ≤ 100 ∧ 17 * 100 / 40 < tent_y 100 - opening_height 100 ∧
    create_app_icon 100 (100 / 2) (17 * 100 / 40) = ⟨255, 255, 255, 255⟩ :=
  ⟨by decide, by decide, C4_tent_pixel_white 100 (by decide) (by decide)⟩

/-- C8: each `draw_star` polygon has exactly 10 vertices; vertex `i` is
vertex `i` of the loop, sits at squared distance `radius²` from the star
centre when `i` is even and `(radius * 0.5)²` when `i` is odd, and the
vertex angles start at the top (`-π/2`) and advance by `π/5 = 36°` per
vertex. -/
theorem C8_star_vertices (x y radius : ℝ) (i : Fin 10) :
    (starPoints x y radius).length = 10 ∧
    (starPoints x y radius).get? (i : ℕ) = some (starVertex x y radius i) ∧
    ((starVertex x y radius i).1 - x) ^ 2 + ((starVertex x y radius i).2 - y) ^ 2 =
      (if (i : ℕ) % 2 = 0 then radius else radius * 0.5) ^ 2 ∧
    starAngle 0 = -(Real.pi / 2) ∧
    starAngle ((i : ℕ) + 1) - starAngle i = Real.pi / 5 := by
  refine ⟨by simp [starPoints], ?_, ?_, ?_, ?_⟩
  · simp [starPoints, List.get?_map, List.get?_range, i.isLt]
  · have hsc := Real.sin_sq_add_cos_sq (starAngle i)
    dsimp only [starVertex]
    rw [add_sub_cancel_left, add_sub_cancel_left]
    split_ifs with hpar
    · linear_combination (radius ^ 2) * hsc
    · linear_combination ((radius * 0.5) ^ 2) * hsc
  · unfold starAngle; push_cast; ring
  · unfold starAngle; push_cast; ring

/-- C6: the generated `Contents.json` structure has exactly 9 image
entries and the info block `version = 1, author = "xcode"`; every entry
carries a nonempty size string, an idiom that is `"iphone"` or
`"ios-marketing"`, a nonempty filename, and a scale in
`{"1x", "2x", "3x"}`. -/
theorem C6_manifest_structure :
    contents.images.length = 9 ∧
    contents.info.version = 1 ∧ contents.info.author = "xcode" ∧
    (contents.images.all fun e =>
      (e.idiom == "iphone" || e.idiom == "ios-marketing") &&
      (e.scale == "1x" || e.scale == "2x" || e.scale == "3x") &&
      !(e.size == "") && !(e.filename == "")) = true :=
  ⟨rfl, rfl, rfl, rfl⟩

lemma makedirs_files (fs : FS) (d : String) : (makedirs fs d).files = fs.files := by
  unfold makedirs; split_ifs <;> rfl

lemma makedirs_dirs_mem (fs : FS) (d e : String) (h : e ∈ fs.dirs) :
    e ∈ (makedirs fs d).dirs := by
  unfold makedirs; split_ifs with hh
  · exact h
  · exact List.mem_cons_of_mem _ h

lemma makedirs_dirs_self (fs : FS) (d : String) : d ∈ (makedirs fs d).dirs := by
  unfold makedirs; split_ifs with hh
  · exact hh
  · exact List.mem_cons_self _ _

lemma androidStep_dirs_mem (fs : FS) (e : ℕ × String) (d : String)
    (h : d ∈ fs.dirs) : d ∈ (androidStep fs e).dirs :=
  makedirs_dirs_mem fs e.2 d h

lemma androidStep_dirs_self (fs : FS) (e : ℕ × String) : e.2 ∈ (androidStep fs e).dirs :=
  makedirs_dirs_self fs e.2

lemma androidStep_files_mem (fs : FS) (e : ℕ × String)
    (f : String × String × (ℕ → ℕ → Color)) (h : f ∈ fs.files) :
    f ∈ (androidStep fs e).files := by
  unfold androidStep saveFile
  refine List.mem_cons_of_mem _ (List.mem_cons_of_mem _ ?_)
  rw [makedirs_files]
  exact h

lemma androidStep_file_launcher (fs : FS) (e : ℕ × String) :
    (e.2, "ic_launcher.png", create_app_icon e.1) ∈ (androidStep fs e).files :=
  List.mem_cons_of_mem _ (List.mem_cons_self _ _)

lemma androidStep_file_round (fs : FS) (e : ℕ × String) :
    (e.2, "ic_launcher_round.png", create_app_icon e.1) ∈ (androidStep fs e).files :=
  List.mem_cons_self _ _

/-- C7: from any starting filesystem state, the Android export loop creates
(or keeps) each of the five density directories and writes the same rendered
bitmap into it twice, as `ic_launcher.png` and `ic_launcher_round.png`. -/
theorem C7_android_export (fs0 : FS) (p : ℕ × String) (hp : p ∈ android_sizes) :
    p.2 ∈ (androidGenerate fs0).dirs ∧
    ∃ bmp, (p.2, "ic_launcher.png", bmp) ∈ (androidGenerate fs0).files ∧
      (p.2, "ic_launcher_round.png", bmp) ∈ (androidGenerate fs0).files ∧
      bmp = create_app_icon p.1 := by
  have hgen : androidGenerate fs0 =
      androidStep (androidStep (androidStep (androidStep (androidStep fs0
        (48, "mipmap-mdpi")) (72, "mipmap-hdpi")) (96, "mipmap-xhdpi"))
        (144, "mipmap-xxhdpi")) (192, "mipmap-xxxhdpi") := rfl
  rw [hgen]
  fin_cases hp
  · refine ⟨?_, create_app_icon 48, ?_, ?_, rfl⟩
    · exact androidStep_dirs_mem _ _ _ (androidStep_dirs_mem _ _ _
        (androidStep_dirs_mem _ _ _ (androidStep_dirs_mem _ _ _
          (androidStep_dirs_self _ _))))
    · exact androidStep_files_mem _ _ _ (androidStep_files_mem _ _ _
        (androidStep_files_mem _ _ _ (androidStep_files_mem _ _ _
          (androidStep_file_launcher _ _))))
    · exact androidStep_files_mem _ _ _ (androidStep_files_mem _ _ _
        (androidStep_files_mem _ _ _ (androidStep_files_mem _ _ _
          (androidStep_file_round _ _))))
  · refine ⟨?_, create_app_icon 72, ?_, ?_, rfl⟩
    · exact androidStep_dirs_mem _ _ _ (androidStep_dirs_mem _ _ _
        (androidStep_dirs_mem _ _ _ (androidStep_dirs_self _ _)))
    · exact androidStep_files_mem _ _ _ (androidStep_files_mem _ _ _
        (androidStep_files_mem _ _ _ (androidStep_file_launcher _ _)))
    · exact androidStep_files_mem _ _ _ (androidStep_files_mem _ _ _
        (androidStep_files_mem _ _ _ (androidStep_file_round _ _)))
  · refine ⟨?_, create_app_icon 96, ?_, ?_, rfl⟩
    · exact androidStep_dirs_mem _ _ _ (androidStep_dirs_mem _ _ _
        (androidStep_dirs_self _ _))
    · exact androidStep_files_mem _ _ _ (androidStep_files_mem _ _ _
        (androidStep_file_launcher _ _))
    · exact androidStep_files_mem _ _ _ (androidStep_files_mem _ _ _
        (androidStep_file_round _ _))
  · refine ⟨?_, create_app_icon 144, ?_, ?_, rfl⟩
    · exact androidStep_dirs_mem _ _ _ (androidStep_dirs_self _ _)
    · exact androidStep_files_mem _ _ _ (androidStep_file_launcher _ _)
    · exact androidStep_files_mem _ _ _ (androidStep_file_round _ _)
  · exact ⟨androidStep_dirs_self _ _, create_app_icon 192,
      androidStep_file_launcher _ _, androidStep_file_round _ _, rfl⟩

theorem C7_android_export_witness :
    ((48, "mipmap-mdpi") : ℕ × String) ∈ android_sizes ∧
    ("mipmap-mdpi" ∈ (androidGenerate ⟨[], []⟩).dirs ∧
      ∃ bmp, ("mipmap-mdpi", "ic_launcher.png", bmp) ∈ (androidGenerate ⟨[], []⟩).files ∧
        ("mipmap-mdpi", "ic_launcher_round.png", bmp) ∈ (androidGenerate ⟨[], []⟩).files ∧
        bmp = create_app_icon 48) :=
  ⟨List.Mem.head _, C7_android_export ⟨[], []⟩ (48, "mipmap-mdpi") (List.Mem.head _)⟩
